import Mathlib

/-!
Shallow embedding of `elasticluster/providers/ansible_provider.py`
(class `AnsibleSetupProvider`): construction-time path resolution,
inventory generation (`_build_inventory`), cluster setup
(`setup_cluster`) and artifact cleanup (`cleanup`), together with
theorems checking the natural-language specification against it.

Filesystem effects are made explicit: `setup_cluster` consumes an
oracle for `os.path.exists` / `os.path.isfile` / `os.path.realpath`
and the child-process exit code, and returns both its result and the
command line / environment of the child process it would launch (if
any); `cleanup` acts on an explicit model of the storage directory.
-/

namespace AnsibleProvider

/-- Python `\s` (ASCII range), which is also the character class
stripped by `str.strip()` with no argument. -/
def isPySpace (c : Char) : Bool :=
  c = ' ' || c = '\t' || c = '\n' || c = '\x0b' || c = '\x0c' || c = '\r'

/-- A character matched by the `[,:]` class of `_PATH_SPLIT_RE`. -/
def isPathSep (c : Char) : Bool :=
  c = ',' || c = ':'

/-- `re.split` with pattern `\s*[,:]\s*` (this is `_PATH_SPLIT_RE`:
the `re.X` flag makes the literal spaces in the source pattern
insignificant), on character lists.  A match consumes a comma or
colon together with the whitespace run directly before it (leftmost
match) and the whitespace run directly after it (greedy `\s*`);
`skipWs` is true while scanning inside the trailing `\s*` of the
previous match, and `cur` holds the current piece reversed. -/
def pathSplitAux (skipWs : Bool) (cur : List Char) : List Char → List (List Char)
  | [] => [cur.reverse]
  | c :: rest =>
    if isPathSep c then
      (cur.dropWhile isPySpace).reverse :: pathSplitAux true [] rest
    else if skipWs && isPySpace c then
      pathSplitAux true cur rest
    else
      pathSplitAux false (c :: cur) rest

/-- `_PATH_SPLIT_RE.split(s)` on strings. -/
def pathSplit (s : String) : List String :=
  (pathSplitAux false [] s.data).map List.asString

/-- Python `str.strip()` on character lists: drop leading and
trailing whitespace. -/
def pyStripChars (l : List Char) : List Char :=
  ((l.dropWhile isPySpace).reverse.dropWhile isPySpace).reverse

/-- Python `str.strip()`. -/
def pyStrip (s : String) : String :=
  (pyStripChars s.data).asString

/-- The parsing of the `ansible_module_dir` argument in `__init__`:
`[pth.strip() for pth in _PATH_SPLIT_RE.split(ansible_module_dir)]`
when the argument is truthy, `[]` otherwise (`None` and the empty
string are both falsy; we model the argument as a string with `""`
standing for unset). -/
def parseModuleDirs (ansible_module_dir : String) : List String :=
  if ansible_module_dir = "" then []
  else (pathSplit ansible_module_dir).map pyStrip

/-- The slice of the process environment relevant to path expansion:
the home directory (for `os.path.expanduser`) and the variable table
(for `os.path.expandvars`). -/
structure OSEnv where
  home : String
  vars : List (String × String)
deriving Repr

/-- Python `s.startswith(pre)`, on the character lists (kept
kernel-computable). -/
def strStartsWith (s pre : String) : Bool :=
  pre.data.isPrefixOf s.data

/-- Python `s.endswith(suf)`, on the character lists. -/
def strEndsWith (s suf : String) : Bool :=
  suf.data.isSuffixOf s.data

/-- `os.path.expanduser` for the bare-tilde forms `~` and `~/...`
(the `~user` form would consult the password database, an external
collaborator; it is left unexpanded here).  `~/x` expands to
`home + path[1:]`. -/
def expanduser (env : OSEnv) (p : String) : String :=
  if p = "~" then env.home
  else if strStartsWith p "~/" then (env.home.data ++ p.data.tail).asString
  else p

/-- Characters allowed in a bare `$name` variable reference by
`os.path.expandvars`. -/
def isVarChar (c : Char) : Bool := c.isAlphanum || c = '_'

/-- Split off the longest leading run of variable-name characters. -/
def takeVarName : List Char → List Char × List Char
  | [] => ([], [])
  | c :: rest =>
    if isVarChar c then
      let (n, r) := takeVarName rest
      (c :: n, r)
    else ([], c :: rest)

/-- `os.path.expandvars` on character lists: occurrences of `$name`
and of `$\x7bname\x7d` are replaced by the variable's value when it is
set and left as written otherwise; an unterminated `$\x7b` leaves the
rest of the string unchanged. -/
def expandvarsAux (env : OSEnv) : List Char → List Char
  | [] => []
  | '$' :: '\x7b' :: rest2 =>
    let name := rest2.takeWhile (fun d => d ≠ '\x7d')
    let after := rest2.dropWhile (fun d => d ≠ '\x7d')
    if after.isEmpty then '$' :: '\x7b' :: rest2
    else
      match (env.vars.lookup name.asString) with
      | some v => v.data ++ expandvarsAux env after.tail
      | none => '$' :: '\x7b' :: (name ++ '\x7d' :: expandvarsAux env after.tail)
  | '$' :: rest =>
    let nr := takeVarName rest
    if nr.1.isEmpty then '$' :: expandvarsAux env rest
    else
      match (env.vars.lookup nr.1.asString) with
      | some v => v.data ++ expandvarsAux env nr.2
      | none => '$' :: (nr.1 ++ expandvarsAux env nr.2)
  | c :: rest => c :: expandvarsAux env rest
termination_by l => l.length
decreasing_by
  all_goals
    first
      | (have h1 : (rest2.dropWhile (fun d => d ≠ '\x7d')).length ≤ rest2.length :=
           (List.dropWhile_suffix _).length_le
         simp only [List.length_tail, List.length_cons]
         omega)
      | (have h1 : ∀ l : List Char, (takeVarName l).2.length ≤ l.length := by
           intro l
           induction l with
           | nil => simp [takeVarName]
           | cons d t ih =>
             simp only [takeVarName]
             by_cases hd : isVarChar d
             · simp only [hd, if_pos]
               exact Nat.le_succ_of_le ih
             · simp [hd]
         have h2 := h1 rest
         simp only [List.length_cons]
         omega)

/-- `os.path.expandvars`. -/
def expandvars (env : OSEnv) (p : String) : String :=
  (expandvarsAux env p.data).asString

/-- `os.path.join` for two components (Python: the second component
replaces the first when absolute; otherwise a `/` separator is
inserted unless the first component is empty or already ends in `/`). -/
def path_join (a b : String) : String :=
  if strStartsWith b "/" then b
  else if a = "" || strEndsWith a "/" then a ++ b
  else a ++ "/" ++ b

/-- `os.path.isabs`. -/
def isAbs (p : String) : Bool := strStartsWith p "/"

/-- A cluster node, as consumed by `_build_inventory`: `node.kind`,
`node.name`, `node.image_user` and `node.preferred_ip`. -/
structure Node where
  kind : String
  name : String
  image_user : String
  preferred_ip : String
deriving Repr, DecidableEq

/-- The slice of `elasticluster.cluster.Cluster` consumed here:
`get_all_nodes()` (an ordered node sequence), `name`, and
`user_key_private`. -/
structure Cluster where
  name : String
  nodes : List Node
  user_key_private : String
deriving Repr, DecidableEq

/-- The state of an `AnsibleSetupProvider` after `__init__`.
Python dictionaries (`groups`, `environment_vars` and its per-kind
tables) are modelled as insertion-ordered association lists. -/
structure Provider where
  groups : List (String × List String)
  playbook_path : String
  environment : List (String × List (String × String))
  storage_path : String
  sudo_user : String
  sudoEnabled : Bool  -- Python attribute `_sudo` (`sudo` is unavailable as a Lean name here)
  ssh_pipelining : Bool
  storage_path_tmp : Bool
  ansible_module_dir : List String
deriving Repr, DecidableEq

/-- `AnsibleSetupProvider.inventory_file_ending`. -/
def inventory_file_ending : String := "ansible-inventory"

/-- `AnsibleSetupProvider.__init__`.  External effects are passed in
explicitly: `osenv` backs `os.path.expanduser` / `os.path.expandvars`,
`sysPrefix` is `sys.prefix`, and `tmpdir` is the directory that
`tempfile.mkdtemp()` would return.  `playbook_path`, `storage_path`
and `ansible_module_dir` use `""` for Python's falsy unset values
(`None` or the empty string).  The `os.makedirs` side effect on a
missing user-supplied storage path is not modelled (it creates the
directory or raises; no claim depends on it). -/
def initProvider (osenv : OSEnv) (sysPrefix tmpdir : String)
    (groups : List (String × List String))
    (playbook_path : String)
    (environment_vars : List (String × List (String × String)))
    (storage_path : String) (sudoEnabled : Bool) (sudo_user : String)
    (ansible_module_dir : String) (ssh_pipelining : Bool) : Provider :=
  let pb :=
    if playbook_path = "" then
      path_join (path_join sysPrefix
        "share/elasticluster/providers/ansible-playbooks") "site.yml"
    else expandvars osenv (expanduser osenv playbook_path)
  let st :=
    if storage_path = "" then (tmpdir, true)
    else (expandvars osenv (expanduser osenv storage_path), false)
  { groups := groups
    playbook_path := pb
    environment := environment_vars
    storage_path := st.1
    sudo_user := sudo_user
    sudoEnabled := sudoEnabled
    ssh_pipelining := ssh_pipelining
    storage_path_tmp := st.2
    ansible_module_dir := parseModuleDirs ansible_module_dir }

/-! ## Inventory building (`_build_inventory`) -/

/-- One host entry: `(node.name, public_ip, variable string)`. -/
abbrev Host := String × String × String

/-- The in-memory `inventory` dictionary: group name to host list. -/
abbrev InventoryDoc := List (String × List Host)

/-- Python `str.join(' ', l)`. -/
def joinSpace : List String → String
  | [] => ""
  | [x] => x
  | x :: xs => x ++ " " ++ joinSpace xs

/-- The `extra_vars` list computed for one node: the login-user
override first, then `key=value` for each per-kind environment entry. -/
def extraVars (p : Provider) (n : Node) : List String :=
  ("ansible_ssh_user=" ++ n.image_user) ::
    (match (p.environment.lookup n.kind) with
     | some kvs => kvs.map (fun kv => kv.1 ++ "=" ++ kv.2)
     | none => [])

/-- `inventory[group].append(entry)`, creating the group on first use
(`if group not in inventory: inventory[group] = []`). -/
def addHost (inv : InventoryDoc) (g : String) (h : Host) : InventoryDoc :=
  match inv with
  | [] => [(g, [h])]
  | (g1, hs) :: rest =>
    if g1 = g then (g1, hs ++ [h]) :: rest else (g1, hs) :: addHost rest g h

/-- Processing of one node of the `for node in cluster.get_all_nodes()`
loop: a node whose kind is not in `self.groups` is skipped; otherwise
one entry is appended for every group mapped to its kind. -/
def addNode (p : Provider) (inv : InventoryDoc) (n : Node) : InventoryDoc :=
  match (p.groups.lookup n.kind) with
  | none => inv
  | some gs =>
    gs.foldl (fun acc g =>
      addHost acc g (n.name, n.preferred_ip, joinSpace (extraVars p n))) inv

/-- The full `inventory` dictionary built by the node loop. -/
def buildDoc (p : Provider) (c : Cluster) : InventoryDoc :=
  c.nodes.foldl (addNode p) []

/-- One host line: `"%s ansible_ssh_host=%s %s\n" % host`. -/
def renderHost (h : Host) : String :=
  h.1 ++ " ansible_ssh_host=" ++ h.2.1 ++ " " ++ h.2.2 ++ "\n"

/-- One section of the file write loop:
`"\n[" + section + "]\n"` followed, when `hosts` is truthy, by the
host lines. -/
def renderSection (sec : String × List Host) : String :=
  "\n[" ++ sec.1 ++ "]\n" ++
    (if sec.2.isEmpty then "" else String.join (sec.2.map renderHost))

/-- The storage directory used when writing the inventory: a fresh
temporary directory is created only when the tracked one is temporary
and has become falsy. -/
def inventoryStorage (p : Provider) (freshTmp : String) : String :=
  if p.storage_path_tmp && p.storage_path = "" then freshTmp else p.storage_path

/-- The inventory file name `'%s.%s' % (inventory_file_ending, cluster.name)`. -/
def inventoryName (c : Cluster) : String :=
  inventory_file_ending ++ "." ++ c.name

/-- `_build_inventory(cluster)`: `none` when no node matched any
configured group (the Python method logs and returns `None`);
otherwise the artifact path together with the exact text written to
it. -/
def build_inventory (p : Provider) (c : Cluster) (freshTmp : String) :
    Option (String × String) :=
  let inv := buildDoc p c
  if inv.isEmpty then none
  else
    some (path_join (inventoryStorage p freshTmp) (inventoryName c),
          String.join (inv.map renderSection))

/-! ## Invocation engine (`setup_cluster`) -/

/-- Filesystem oracle for the checks performed by `setup_cluster`. -/
structure FS where
  pathExists : String → Bool
  isFile : String → Bool
  realpath : String → String

/-- `d[k] = v` on an association list modelling a Python dict. -/
def setEnv (l : List (String × String)) (k v : String) : List (String × String) :=
  match l with
  | [] => [(k, v)]
  | (k1, v1) :: rest =>
    if k1 = k then (k, v) :: rest else (k1, v1) :: setEnv rest k v

/-- The `ansible_env` dictionary built in `setup_cluster`: a copy of
`os.environ` with the five fixed overrides applied. -/
def buildAnsibleEnv (osEnviron : List (String × String))
    (private_key_file : String) : List (String × String) :=
  setEnv (setEnv (setEnv (setEnv (setEnv osEnviron
    "ANSIBLE_FORKS" "10")
    "ANSIBLE_HOST_KEY_CHECKING" "no")
    "ANSIBLE_PRIVATE_KEY_FILE" private_key_file)
    "ANSIBLE_SSH_PIPELINING" "yes")
    "ANSIBLE_TIMEOUT" "120"

/-- `min(3, (logging.WARNING - elasticluster.log.level) / 10)` with
`logging.WARNING = 30`; the Python-2 `/` on integers is floor
division. -/
def verbosity (logLevel : Int) : Int :=
  min 3 ((30 - logLevel).fdiv 10)

/-- The command line before the verbosity flag: tool name, resolved
playbook path, inventory flag, and the optional sudo flags. -/
def baseCmd (p : Provider) (fs : FS) (inventoryPath : String) : List String :=
  ["ansible-playbook",
   fs.realpath p.playbook_path,
   "--inventory=" ++ inventoryPath] ++
  (if p.sudoEnabled then ["--sudo", "--sudo-user=" ++ p.sudo_user] else [])

/-- The full `cmd` list passed to `subprocess.call`, including the
`-v`/`-vv`/`-vvv` flag appended when the computed verbosity is
positive (`'-' + 'v' * verbosity`). -/
def buildCmd (p : Provider) (fs : FS) (inventoryPath : String)
    (logLevel : Int) : List String :=
  baseCmd p fs inventoryPath ++
    (if 0 < verbosity logLevel then
       ["-" ++ String.mk (List.replicate (verbosity logLevel).toNat 'v')]
     else [])

/-- Observable outcome of one `setup_cluster` call: the returned value
(`Except.error` models a raised `AnsibleError`), and the command line
and environment of the child process, when one is launched. -/
structure SetupOutcome where
  result : Except String Bool
  invoked : Option (List String × List (String × String))
deriving Repr

/-- `setup_cluster(cluster)`.  `osEnviron` is `os.environ`, `logLevel`
is `elasticluster.log.level`, `freshTmp` backs the lazy `mkdtemp` in
`_build_inventory`, and `exitCode` is the exit status the external
`ansible-playbook` process would return. -/
def setup_cluster (p : Provider) (c : Cluster) (fs : FS)
    (osEnviron : List (String × String)) (logLevel : Int)
    (freshTmp : String) (exitCode : Int) : SetupOutcome :=
  let inv := build_inventory p c freshTmp
  let ansibleEnv := buildAnsibleEnv osEnviron c.user_key_private
  match inv with
  | none => { result := .ok true, invoked := none }
  | some (inventoryPath, _) =>
    if fs.pathExists inventoryPath = false then
      { result := .error ("inventory file `" ++ inventoryPath ++
          "` could not be found"), invoked := none }
    else if fs.pathExists p.playbook_path = false then
      { result := .error ("playbook `" ++ p.playbook_path ++
          "` could not be found"), invoked := none }
    else if fs.isFile p.playbook_path = false then
      { result := .error ("playbook `" ++ p.playbook_path ++
          "` is not a file"), invoked := none }
    else
      { result := .ok (exitCode == 0),
        invoked := some (buildCmd p fs inventoryPath logLevel, ansibleEnv) }

/-! ## Artifact lifecycle (`cleanup`) -/

/-- The state of the storage directory: whether the directory itself
exists, and the names of the files inside it (`os.listdir`). -/
structure DirState where
  dirExists : Bool
  files : List String
deriving Repr, DecidableEq

/-- `cleanup(cluster)`.  `unlinkOk` (resp. `rmtreeOk`) is false when
`os.unlink` (resp. `shutil.rmtree`) would raise `OSError`; either
exception is caught and logged by the method, so the call itself
never raises. -/
def cleanup (p : Provider) (c : Cluster) (st : DirState)
    (unlinkOk rmtreeOk : Bool) : DirState :=
  if p.storage_path ≠ "" ∧ st.dirExists = true then
    if inventoryName c ∈ st.files then
      if unlinkOk then
        let rest := st.files.filter (fun f => f ≠ inventoryName c)
        if p.storage_path_tmp = true ∧ rest.length = 0 then
          if rmtreeOk then { dirExists := false, files := [] }
          else { st with files := rest }
        else { st with files := rest }
      else st
    else st
  else st

/-! ## Spec-side definitions (for refinement comparisons) and fixtures -/

/-- Modelled from the spec: "splitting on comma or colon", with no
treatment of whitespace (trimming is applied to the pieces
afterwards).  Used only to compare the source's regex split against
the spec's description. -/
def splitAtSeps : List Char → List (List Char)
  | [] => [[]]
  | c :: rest =>
    if isPathSep c then [] :: splitAtSeps rest
    else (splitAtSeps rest).modifyHead (fun piece => c :: piece)

/-- Modelled from the spec: one host line,
`<name> ansible_ssh_host=<address> <variable-string>` plus newline. -/
def specHostLine (h : Host) : String :=
  h.1 ++ " ansible_ssh_host=" ++ h.2.1 ++ " " ++ h.2.2 ++ "\n"

/-- Modelled from the spec: "one blank line, then `[<group>]`, then
one line per host", for one group of the document. -/
def specRenderSection (sec : String × List Host) : String :=
  "\n" ++ ("[" ++ sec.1 ++ "]") ++ "\n" ++ String.join (sec.2.map specHostLine)

/-- Fixture: the provider of the spec's running example
(`RoleGroupMap {"frontend": ["web"]}`). -/
def exampleProvider : Provider :=
  { groups := [("frontend", ["web"])]
    playbook_path := "/pb/site.yml"
    environment := []
    storage_path := "/tmp/st"
    sudo_user := "root"
    sudoEnabled := true
    ssh_pipelining := true
    storage_path_tmp := false
    ansible_module_dir := [] }

/-- Fixture: the node of the spec's running example. -/
def exampleNode : Node :=
  { kind := "frontend", name := "n1", image_user := "ubuntu",
    preferred_ip := "10.0.0.1" }

/-- Fixture: a one-node cluster named `mycluster`. -/
def exampleCluster : Cluster :=
  { name := "mycluster", nodes := [exampleNode], user_key_private := "/keys/key" }

/-- Fixture: a cluster whose only node kind (`db`) is not in the
example provider's role-to-group mapping. -/
def unmatchedCluster : Cluster :=
  { name := "lonely",
    nodes := [{ kind := "db", name := "d1", image_user := "root",
                preferred_ip := "10.0.0.9" }],
    user_key_private := "/keys/key" }

/-- Fixture: a filesystem oracle on which every checked path exists
and is a regular file, and `realpath` is the identity. -/
def fsAll : FS :=
  { pathExists := fun _ => true, isFile := fun _ => true, realpath := fun s => s }

/-- Fixture: a filesystem oracle on which the example cluster's
generated inventory file is missing. -/
def fsNoInv : FS :=
  { pathExists := fun s => !(s == "/tmp/st/ansible-inventory.mycluster")
    isFile := fun _ => true
    realpath := fun s => s }

/-- Fixture: the example provider with an ephemeral (temporary)
storage directory. -/
def tmpProvider : Provider :=
  { exampleProvider with storage_path_tmp := true }

/-- Fixture: two clusters sharing one storage directory. -/
def clusterA : Cluster := { name := "alpha", nodes := [], user_key_private := "/k" }

/-- Fixture: the second of the two sharing clusters. -/
def clusterB : Cluster := { name := "beta", nodes := [], user_key_private := "/k" }

/-- Fixture: the shared storage directory holding both clusters'
artifacts. -/
def sharedDir : DirState :=
  { dirExists := true,
    files := ["ansible-inventory.alpha", "ansible-inventory.beta"] }

/-! ## Shared helper lemmas -/

theorem str_append_assoc (a b c : String) : a ++ b ++ c = a ++ (b ++ c) := by
  apply String.ext
  simp [String.data_append, List.append_assoc]

theorem str_append_empty (a : String) : a ++ "" = a := by
  apply String.ext
  simp [String.data_append]

theorem str_append_cancel_left {a b c : String} (h : a ++ b = a ++ c) : b = c := by
  apply String.ext
  have hd : a.data ++ b.data = a.data ++ c.data := by
    rw [← String.data_append, ← String.data_append, h]
  exact List.append_cancel_left hd

/-- Dropping a predicate-true block from the front of an append. -/
theorem dropWhile_append_of_all {p : Char → Bool} {w : List Char} (l : List Char)
    (hw : ∀ x ∈ w, p x = true) :
    (w ++ l).dropWhile p = l.dropWhile p := by
  rw [List.dropWhile_append]
  have h0 : w.dropWhile p = [] := List.dropWhile_eq_nil_iff.mpr hw
  simp [h0]

/-- A leading whitespace character does not change the result of
`str.strip()`. -/
theorem pyStripChars_cons_space {c : Char} (l : List Char) (h : isPySpace c = true) :
    pyStripChars (c :: l) = pyStripChars l := by
  simp [pyStripChars, List.dropWhile_cons, h]

/-- Trailing whitespace does not change the result of `str.strip()`. -/
theorem pyStripChars_append_space {w : List Char} (l : List Char)
    (hw : ∀ x ∈ w, isPySpace x = true) :
    pyStripChars (l ++ w) = pyStripChars l := by
  unfold pyStripChars
  rw [List.dropWhile_append]
  by_cases h0 : (l.dropWhile isPySpace).isEmpty = true
  · have hw0 : w.dropWhile isPySpace = [] := List.dropWhile_eq_nil_iff.mpr hw
    rw [List.isEmpty_iff] at h0
    simp [h0, hw0]
  · simp only [h0, if_neg, Bool.false_eq_true, not_false_iff, if_false]
    rw [List.reverse_append]
    rw [dropWhile_append_of_all _ (by intro x hx; exact hw x (List.mem_reverse.mp hx))]

/-- Stripping trailing whitespace first does not change the result of
`str.strip()`. -/
theorem pyStripChars_rev_dropWhile (cur : List Char) :
    pyStripChars ((cur.dropWhile isPySpace).reverse) = pyStripChars cur.reverse := by
  conv_rhs => rw [← List.takeWhile_append_dropWhile isPySpace cur]
  rw [List.reverse_append]
  rw [pyStripChars_append_space _
    (by intro x hx; exact List.mem_takeWhile_imp (List.mem_reverse.mp hx))]

/-! ## C7: module-directory parsing -/

theorem splitAtSeps_ne_nil (l : List Char) : splitAtSeps l ≠ [] := by
  cases l with
  | nil => simp [splitAtSeps]
  | cons c rest =>
    simp only [splitAtSeps]
    by_cases h : isPathSep c = true
    · simp [h]
    · simp only [h, if_neg, Bool.false_eq_true, not_false_iff, if_false]
      obtain ⟨p0, ps, hps⟩ := List.exists_cons_of_ne_nil (splitAtSeps_ne_nil rest)
      simp [hps]

/-- Up to `str.strip()` of every piece, the regex split of
`_PATH_SPLIT_RE` agrees with plainly splitting at every comma or
colon. -/
theorem pathSplitAux_strip (l : List Char) : ∀ cur : List Char,
    ((pathSplitAux false cur l).map pyStripChars =
      ((splitAtSeps l).modifyHead (fun piece => cur.reverse ++ piece)).map pyStripChars) ∧
    ((pathSplitAux true [] l).map pyStripChars = (splitAtSeps l).map pyStripChars) := by
  induction l with
  | nil =>
    intro cur
    constructor
    · simp [pathSplitAux, splitAtSeps]
    · simp [pathSplitAux, splitAtSeps]
  | cons c rest ih =>
    intro cur
    obtain ⟨p0, ps, hps⟩ := List.exists_cons_of_ne_nil (splitAtSeps_ne_nil rest)
    by_cases hc : isPathSep c = true
    · constructor
      · simp only [pathSplitAux, hc, if_pos, splitAtSeps, List.modifyHead_cons,
          List.map_cons, (ih []).2]
        rw [pyStripChars_rev_dropWhile, List.append_nil]
      · simp only [pathSplitAux, hc, if_pos, splitAtSeps, List.map_cons, (ih []).2]
        simp [pyStripChars]
    · constructor
      · simp only [pathSplitAux, hc, Bool.false_eq_true, if_neg, not_false_iff,
          if_false, Bool.false_and]
        rw [(ih (c :: cur)).1]
        simp only [splitAtSeps, hc, Bool.false_eq_true, if_neg, not_false_iff,
          if_false, hps, List.modifyHead_cons, List.map_cons, List.reverse_cons]
        rw [List.append_assoc]
        simp
      · by_cases hs : isPySpace c = true
        · simp only [pathSplitAux, hc, Bool.false_eq_true, if_neg, not_false_iff,
            if_false, hs, Bool.true_and, if_pos, if_true]
          rw [(ih []).2]
          simp only [splitAtSeps, hc, Bool.false_eq_true, if_neg, not_false_iff,
            if_false, hps, List.modifyHead_cons, List.map_cons]
          rw [pyStripChars_cons_space _ hs]
        · simp only [pathSplitAux, hc, Bool.false_eq_true, if_neg, not_false_iff,
            if_false, hs, Bool.true_and, if_false]
          rw [(ih [c]).1]
          simp [splitAtSeps, hc, hps]

/-- C7: the module-directory configuration string is parsed by
splitting on comma or colon with surrounding whitespace trimmed,
yielding an ordered sequence of trimmed path strings; `"a, b:c"`
parses to `["a", "b", "c"]`, and an unset (falsy) input yields the
empty sequence. -/
theorem moduleDir_parse_correct (s : String) (hs : s ≠ "") :
    parseModuleDirs "" = [] ∧
    parseModuleDirs "a, b:c" = ["a", "b", "c"] ∧
    parseModuleDirs s =
      (splitAtSeps s.data).map (fun piece => (pyStripChars piece).asString) := by
  refine ⟨rfl, by decide, ?_⟩
  have h1 : (pathSplitAux false [] s.data).map pyStripChars =
      (splitAtSeps s.data).map pyStripChars := by
    have h2 := (pathSplitAux_strip s.data []).1
    simp only [List.reverse_nil, List.nil_append] at h2
    rwa [show List.modifyHead (fun piece : List Char => piece) (splitAtSeps s.data) =
        splitAtSeps s.data by cases splitAtSeps s.data <;> simp] at h2
  unfold parseModuleDirs pathSplit
  simp only [hs, if_neg, not_false_iff, if_false, List.map_map]
  show (pathSplitAux false [] s.data).map (pyStrip ∘ List.asString) = _
  rw [show (pyStrip ∘ List.asString : List Char → String) =
      (List.asString ∘ pyStripChars) from funext (fun piece => rfl)]
  rw [show (fun piece : List Char => (pyStripChars piece).asString) =
      (List.asString ∘ pyStripChars) from rfl]
  rw [← List.map_map, ← List.map_map, h1]

/-- Witness for C7 at the concrete input `" a :  b , c "`. -/
theorem moduleDir_parse_correct_witness :
    (" a :  b , c " : String) ≠ "" ∧
    parseModuleDirs "a, b:c" = ["a", "b", "c"] ∧
    parseModuleDirs " a :  b , c " =
      (splitAtSeps (" a :  b , c " : String).data).map
        (fun piece => (pyStripChars piece).asString) := by
  have h := moduleDir_parse_correct " a :  b , c " (by decide)
  exact ⟨by decide, h.2.1, h.2.2⟩

/-! ## C9: verbosity flag -/

/-- C9: the verbosity flag appended to the command line is derived
from the caller's logging level, is capped at 3, is appended exactly
when the computed verbosity is positive, and is never appended at or
above the warning level (30). -/
theorem verbosity_flag_correct (lvl : Int) (p : Provider) (fs : FS) (ip : String) :
    verbosity lvl ≤ 3 ∧
    (30 ≤ lvl → verbosity lvl ≤ 0) ∧
    (verbosity lvl ≤ 0 → buildCmd p fs ip lvl = baseCmd p fs ip) ∧
    (0 < verbosity lvl →
      buildCmd p fs ip lvl =
        baseCmd p fs ip ++ ["-" ++ String.mk (List.replicate (verbosity lvl).toNat 'v')] ∧
      (verbosity lvl).toNat ≤ 3) := by
  refine ⟨min_le_left _ _, ?_, ?_, ?_⟩
  · intro h
    unfold verbosity
    rw [Int.fdiv_eq_ediv _ (by norm_num)]
    rw [min_le_iff]
    right
    omega
  · intro h
    unfold buildCmd
    rw [if_neg (by omega)]
    exact List.append_nil _
  · intro h
    constructor
    · unfold buildCmd
      rw [if_pos h]
    · have h3 : verbosity lvl ≤ 3 := min_le_left _ _
      omega

/-- Witness for C9 at log level 10 (debug): the flag `-vv` is
appended. -/
theorem verbosity_flag_correct_witness :
    (0 < verbosity 10 ∧
      buildCmd exampleProvider fsAll "inv" 10 =
        baseCmd exampleProvider fsAll "inv" ++
          ["-" ++ String.mk (List.replicate (verbosity 10).toNat 'v')]) ∧
    (30 ≤ (35 : Int) ∧ verbosity 35 ≤ 0 ∧
      buildCmd exampleProvider fsAll "inv" 35 = baseCmd exampleProvider fsAll "inv") := by
  have h10 := verbosity_flag_correct 10 exampleProvider fsAll "inv"
  have h35 := verbosity_flag_correct 35 exampleProvider fsAll "inv"
  have hpos : 0 < verbosity 10 := by decide
  have hge : (30 : Int) ≤ 35 := by decide
  have hle : verbosity 35 ≤ 0 := h35.2.1 hge
  exact ⟨⟨hpos, (h10.2.2.2 hpos).1⟩, hge, hle, h35.2.2.1 hle⟩

/-! ## C10: SSH pipelining environment variable -/

theorem lookup_setEnv_self (l : List (String × String)) (k v : String) :
    (setEnv l k v).lookup k = some v := by
  induction l with
  | nil => simp [setEnv, List.lookup]
  | cons kv rest ih =>
    obtain ⟨k1, v1⟩ := kv
    simp only [setEnv]
    by_cases h : k1 = k
    · rw [if_pos h, List.lookup_cons]
      simp
    · have hne : (k == k1) = false := by
        simp only [beq_eq_false_iff_ne, ne_eq]
        exact fun he => h he.symm
      rw [if_neg h, List.lookup_cons]
      simp [hne, ih]

theorem lookup_setEnv_ne (l : List (String × String)) (k k2 v : String)
    (h : k ≠ k2) : (setEnv l k2 v).lookup k = l.lookup k := by
  induction l with
  | nil =>
    have hne : (k == k2) = false := by simpa using h
    simp [setEnv, List.lookup, hne]
  | cons kv rest ih =>
    obtain ⟨k1, v1⟩ := kv
    simp only [setEnv]
    have hne2 : (k == k2) = false := by simpa using h
    by_cases h1 : k1 = k2
    · rw [if_pos h1, List.lookup_cons, List.lookup_cons, h1]
      simp [hne2]
    · rw [if_neg h1, List.lookup_cons, List.lookup_cons]
      cases hbe : (k == k1) <;> simp [ih]

/-- C10: `ANSIBLE_SSH_PIPELINING` is set to `yes` in the child
environment of every setup call, and the stored `ssh_pipelining`
flag influences nothing in `setup_cluster` (in particular not the
environment passed to the external tool). -/
theorem ssh_pipelining_ignored (p : Provider) (b : Bool) (c : Cluster) (fs : FS)
    (osEnviron : List (String × String)) (lvl : Int) (tmp : String) (ec : Int) :
    setup_cluster { p with ssh_pipelining := b } c fs osEnviron lvl tmp ec =
      setup_cluster p c fs osEnviron lvl tmp ec ∧
    (buildAnsibleEnv osEnviron c.user_key_private).lookup "ANSIBLE_SSH_PIPELINING" =
      some "yes" := by
  constructor
  · cases p
    rfl
  · unfold buildAnsibleEnv
    rw [lookup_setEnv_ne _ _ _ _ (by decide)]
    exact lookup_setEnv_self _ _ _

/-! ## C8: construction-time path resolution -/

theorem expandvarsAux_no_dollar (env : OSEnv) (l : List Char) (h : '$' ∉ l) :
    expandvarsAux env l = l := by
  induction l with
  | nil => rw [expandvarsAux]
  | cons c rest ih =>
    have hc : c ≠ '$' := fun he => h (he ▸ List.mem_cons_self c rest)
    have hr : '$' ∉ rest := fun hm => h (List.mem_cons_of_mem c hm)
    rw [expandvarsAux.eq_def]
    split
    · rename_i heq
      exact absurd heq (List.cons_ne_nil c rest)
    · rename_i heq
      exact absurd (List.cons.inj heq).1 hc
    · rename_i heq
      exact absurd (List.cons.inj heq).1 hc
    · rename_i c2 rest2 heq
      obtain ⟨h1, h2⟩ := List.cons.inj heq
      rw [← h1, ← h2]
      rw [ih hr]

theorem expandvars_no_dollar (env : OSEnv) (s : String) (h : '$' ∉ s.data) :
    expandvars env s = s := by
  unfold expandvars
  rw [expandvarsAux_no_dollar env s.data h]
  exact String.ext rfl

/-- Counterexample to C8 as stated: the relative playbook path
`playbooks/site.yml` (no tilde, no variable reference) is stored
unchanged by `__init__` and is not absolute — the constructor never
calls `os.path.abspath`/`os.path.realpath`. -/
theorem path_resolution_counterexample :
    (initProvider ⟨"/home/user", []⟩ "/usr" "/tmp/x" [] "playbooks/site.yml" []
        "relative/storage" true "root" "" true).playbook_path = "playbooks/site.yml" ∧
    (initProvider ⟨"/home/user", []⟩ "/usr" "/tmp/x" [] "playbooks/site.yml" []
        "relative/storage" true "root" "" true).storage_path = "relative/storage" ∧
    isAbs "playbooks/site.yml" = false ∧
    isAbs "relative/storage" = false := by
  refine ⟨?_, ?_, by decide, by decide⟩
  · unfold initProvider
    simp only [if_neg (by decide : ¬("playbooks/site.yml" : String) = "")]
    rw [show expanduser ⟨"/home/user", []⟩ "playbooks/site.yml" =
        "playbooks/site.yml" by decide]
    exact expandvars_no_dollar _ _ (by decide)
  · unfold initProvider
    simp only [if_neg (by decide : ¬("relative/storage" : String) = "")]
    rw [show expanduser ⟨"/home/user", []⟩ "relative/storage" =
        "relative/storage" by decide]
    exact expandvars_no_dollar _ _ (by decide)

/-- C8 (amended): at construction time every supplied (truthy)
playbook path and storage path is user-expanded then
environment-expanded; absoluteness is NOT guaranteed — the stored
path is exactly `expandvars(expanduser(input))`, so a relative input
stays relative.  (A user-supplied storage path is also marked
non-ephemeral.) -/
theorem path_resolution_expands (osenv : OSEnv) (sysPrefix tmpdir : String)
    (groups : List (String × List String)) (pb : String)
    (envv : List (String × List (String × String))) (sp : String)
    (sd : Bool) (su amd : String) (pipe : Bool)
    (hpb : pb ≠ "") (hsp : sp ≠ "") :
    (initProvider osenv sysPrefix tmpdir groups pb envv sp sd su amd pipe).playbook_path =
      expandvars osenv (expanduser osenv pb) ∧
    (initProvider osenv sysPrefix tmpdir groups pb envv sp sd su amd pipe).storage_path =
      expandvars osenv (expanduser osenv sp) ∧
    (initProvider osenv sysPrefix tmpdir groups pb envv sp sd su amd pipe).storage_path_tmp =
      false := by
  unfold initProvider
  simp [hpb, hsp]

/-- Witness for C8 (amended) at a concrete input with a tilde and a
variable reference. -/
theorem path_resolution_expands_witness :
    ("~/pb/site.yml" : String) ≠ "" ∧ ("$D/st" : String) ≠ "" ∧
    (initProvider ⟨"/home/u", [("D", "/data")]⟩ "/usr" "/tmp/x" [] "~/pb/site.yml" []
        "$D/st" true "root" "" true).playbook_path =
      expandvars ⟨"/home/u", [("D", "/data")]⟩
        (expanduser ⟨"/home/u", [("D", "/data")]⟩ "~/pb/site.yml") ∧
    (initProvider ⟨"/home/u", [("D", "/data")]⟩ "/usr" "/tmp/x" [] "~/pb/site.yml" []
        "$D/st" true "root" "" true).storage_path =
      expandvars ⟨"/home/u", [("D", "/data")]⟩
        (expanduser ⟨"/home/u", [("D", "/data")]⟩ "$D/st") := by
  have h := path_resolution_expands ⟨"/home/u", [("D", "/data")]⟩ "/usr" "/tmp/x" []
    "~/pb/site.yml" [] "$D/st" true "root" "" true (by decide) (by decide)
  exact ⟨by decide, by decide, h.1, h.2.1⟩

/-! ## C1: no matching node means no inventory and no-op success -/

theorem foldl_addNode_unmatched (p : Provider) (ns : List Node) (inv : InventoryDoc)
    (h : ∀ n ∈ ns, List.lookup n.kind p.groups = none) :
    ns.foldl (addNode p) inv = inv := by
  induction ns generalizing inv with
  | nil => rfl
  | cons n rest ih =>
    have hn : addNode p inv n = inv := by
      unfold addNode
      rw [h n (List.mem_cons_self n rest)]
    rw [List.foldl_cons, hn]
    exact ih inv (fun m hm => h m (List.mem_cons_of_mem n hm))

/-- C1: when no node's kind appears in the role-to-group mapping,
`_build_inventory` returns no inventory (`None`), and `setup_cluster`
returns success (`True`) without launching any child process. -/
theorem no_match_noop (p : Provider) (c : Cluster) (fs : FS)
    (osEnviron : List (String × String)) (lvl : Int) (tmp : String) (ec : Int)
    (h : ∀ n ∈ c.nodes, List.lookup n.kind p.groups = none) :
    build_inventory p c tmp = none ∧
    (setup_cluster p c fs osEnviron lvl tmp ec).result = .ok true ∧
    (setup_cluster p c fs osEnviron lvl tmp ec).invoked = none := by
  have hdoc : buildDoc p c = [] := foldl_addNode_unmatched p c.nodes [] h
  have hinv : build_inventory p c tmp = none := by
    unfold build_inventory
    simp [hdoc]
  refine ⟨hinv, ?_, ?_⟩ <;>
    · unfold setup_cluster
      rw [hinv]

/-- Witness for C1: a one-node cluster whose node kind `db` is not in
the example role-to-group mapping. -/
theorem no_match_noop_witness :
    (∀ n ∈ unmatchedCluster.nodes,
        List.lookup n.kind exampleProvider.groups = none) ∧
    build_inventory exampleProvider unmatchedCluster "/fresh" = none ∧
    (setup_cluster exampleProvider unmatchedCluster fsAll [] 10 "/fresh" 2).result =
      .ok true ∧
    (setup_cluster exampleProvider unmatchedCluster fsAll [] 10 "/fresh" 2).invoked =
      none := by
  have hh : ∀ n ∈ unmatchedCluster.nodes,
      List.lookup n.kind exampleProvider.groups = none := by decide
  have h := no_match_noop exampleProvider unmatchedCluster fsAll [] 10 "/fresh" 2 hh
  exact ⟨hh, h.1, h.2.1, h.2.2⟩

/-! ## C2: exit-code classification -/

theorem addHost_ne_nil (inv : InventoryDoc) (g : String) (h : Host) :
    addHost inv g h ≠ [] := by
  cases inv with
  | nil => simp [addHost]
  | cons sec rest =>
    obtain ⟨g1, hs⟩ := sec
    simp only [addHost]
    split <;> simp

theorem foldl_addHost_ne_nil (h : Host) (gs : List String)
    (inv : InventoryDoc) (hinv : inv ≠ []) :
    gs.foldl (fun acc g => addHost acc g h) inv ≠ [] := by
  induction gs generalizing inv with
  | nil => exact hinv
  | cons g rest ih =>
    rw [List.foldl_cons]
    exact ih (addHost inv g h) (addHost_ne_nil inv g h)

theorem addNode_ne_nil_pres (p : Provider) (inv : InventoryDoc) (n : Node)
    (hinv : inv ≠ []) : addNode p inv n ≠ [] := by
  unfold addNode
  cases hk : List.lookup n.kind p.groups with
  | none => exact hinv
  | some gs => exact foldl_addHost_ne_nil _ gs inv hinv

theorem addNode_matched_ne_nil (p : Provider) (inv : InventoryDoc) (n : Node)
    (gs : List String) (hk : List.lookup n.kind p.groups = some gs)
    (hgs : gs ≠ []) : addNode p inv n ≠ [] := by
  have h1 : addNode p inv n =
      gs.foldl (fun acc g =>
        addHost acc g (n.name, n.preferred_ip, joinSpace (extraVars p n))) inv := by
    unfold addNode
    rw [hk]
  rw [h1]
  obtain ⟨g, gs2, rfl⟩ := List.exists_cons_of_ne_nil hgs
  rw [List.foldl_cons]
  exact foldl_addHost_ne_nil _ gs2 _ (addHost_ne_nil inv g _)

theorem foldl_addNode_ne_nil_pres (p : Provider) (ns : List Node)
    (inv : InventoryDoc) (hinv : inv ≠ []) : ns.foldl (addNode p) inv ≠ [] := by
  induction ns generalizing inv with
  | nil => exact hinv
  | cons n rest ih =>
    rw [List.foldl_cons]
    exact ih (addNode p inv n) (addNode_ne_nil_pres p inv n hinv)

/-- A node whose kind is mapped to at least one group forces a
non-empty inventory document. -/
theorem buildDoc_ne_nil (p : Provider) (c : Cluster)
    (h : ∃ n ∈ c.nodes, ∃ gs, List.lookup n.kind p.groups = some gs ∧ gs ≠ []) :
    buildDoc p c ≠ [] := by
  unfold buildDoc
  obtain ⟨n, hn, gs, hk, hgs⟩ := h
  obtain ⟨l1, l2, hsplit⟩ := List.append_of_mem hn
  rw [hsplit, List.foldl_append, List.foldl_cons]
  exact foldl_addNode_ne_nil_pres p l2 _ (addNode_matched_ne_nil p _ n gs hk hgs)

/-- The inventory write target and content when at least one node
matched. -/
theorem build_inventory_matched (p : Provider) (c : Cluster) (tmp : String)
    (h : ∃ n ∈ c.nodes, ∃ gs, List.lookup n.kind p.groups = some gs ∧ gs ≠ []) :
    build_inventory p c tmp =
      some (path_join (inventoryStorage p tmp) (inventoryName c),
            String.join ((buildDoc p c).map renderSection)) := by
  unfold build_inventory
  have hne := buildDoc_ne_nil p c h
  simp [List.isEmpty_iff, hne]

/-- C2: for a cluster with at least one matching node (and the
generated inventory and configured playbook present on disk),
`setup_cluster` launches the external tool and returns `True` exactly
when its exit code is 0 and `False` for every non-zero exit code; a
non-zero exit is never raised as an exception. -/
theorem exit_code_classified (p : Provider) (c : Cluster) (fs : FS)
    (osEnviron : List (String × String)) (lvl : Int) (tmp : String) (ec : Int)
    (hmatch : ∃ n ∈ c.nodes, ∃ gs, List.lookup n.kind p.groups = some gs ∧ gs ≠ [])
    (hinv : fs.pathExists (path_join (inventoryStorage p tmp) (inventoryName c)) = true)
    (hpb : fs.pathExists p.playbook_path = true)
    (hpf : fs.isFile p.playbook_path = true) :
    (setup_cluster p c fs osEnviron lvl tmp ec).result = .ok (ec == 0) ∧
    ((setup_cluster p c fs osEnviron lvl tmp ec).result = .ok true ↔ ec = 0) ∧
    (setup_cluster p c fs osEnviron lvl tmp ec).invoked =
      some (buildCmd p fs (path_join (inventoryStorage p tmp) (inventoryName c)) lvl,
            buildAnsibleEnv osEnviron c.user_key_private) := by
  have hsome := build_inventory_matched p c tmp hmatch
  have hres : setup_cluster p c fs osEnviron lvl tmp ec =
      { result := .ok (ec == 0),
        invoked := some
          (buildCmd p fs (path_join (inventoryStorage p tmp) (inventoryName c)) lvl,
           buildAnsibleEnv osEnviron c.user_key_private) } := by
    unfold setup_cluster
    rw [hsome]
    simp [hinv, hpb, hpf]
  refine ⟨by rw [hres], ?_, by rw [hres]⟩
  rw [hres]
  constructor
  · intro hok
    have hb : (ec == 0) = true := by
      have := Except.ok.inj hok
      exact this
    exact of_decide_eq_true hb
  · intro he
    subst he
    rfl

/-- Witness for C2: the example cluster with exit codes 2 and 0. -/
theorem exit_code_classified_witness :
    ((setup_cluster exampleProvider exampleCluster fsAll [] 40 "/fresh" 2).result =
        .ok false) ∧
    ((setup_cluster exampleProvider exampleCluster fsAll [] 40 "/fresh" 0).result =
        .ok true) := by
  have hmatch : ∃ n ∈ exampleCluster.nodes, ∃ gs,
      List.lookup n.kind exampleProvider.groups = some gs ∧ gs ≠ [] :=
    ⟨exampleNode, by decide, ["web"], by decide, by decide⟩
  have h2 := exit_code_classified exampleProvider exampleCluster fsAll [] 40 "/fresh" 2
    hmatch (by decide) (by decide) (by decide)
  have h0 := exit_code_classified exampleProvider exampleCluster fsAll [] 40 "/fresh" 0
    hmatch (by decide) (by decide) (by decide)
  exact ⟨h2.1, h0.1⟩

/-! ## C3: configuration errors are raised before any child process -/

/-- C3: when the generated inventory file is missing on disk, or the
resolved playbook path does not exist or is not a regular file,
`setup_cluster` raises an `AnsibleError` (modelled as `Except.error`)
and no child process is launched. -/
theorem config_error_raises (p : Provider) (c : Cluster) (fs : FS)
    (osEnviron : List (String × String)) (lvl : Int) (tmp : String) (ec : Int)
    (hmatch : ∃ n ∈ c.nodes, ∃ gs, List.lookup n.kind p.groups = some gs ∧ gs ≠ [])
    (hbad : fs.pathExists (path_join (inventoryStorage p tmp) (inventoryName c)) = false ∨
      fs.pathExists p.playbook_path = false ∨ fs.isFile p.playbook_path = false) :
    (∃ msg, (setup_cluster p c fs osEnviron lvl tmp ec).result = .error msg) ∧
    (setup_cluster p c fs osEnviron lvl tmp ec).invoked = none := by
  have hsome := build_inventory_matched p c tmp hmatch
  unfold setup_cluster
  rw [hsome]
  by_cases h1 : fs.pathExists (path_join (inventoryStorage p tmp) (inventoryName c)) = false
  · simp [h1]
  · rw [Bool.not_eq_false] at h1
    by_cases h2 : fs.pathExists p.playbook_path = false
    · simp [h1, h2]
    · rw [Bool.not_eq_false] at h2
      by_cases h3 : fs.isFile p.playbook_path = false
      · simp [h1, h2, h3]
      · rw [Bool.not_eq_false] at h3
        rcases hbad with hb | hb | hb
        · rw [h1] at hb
          exact absurd hb (by decide)
        · rw [h2] at hb
          exact absurd hb (by decide)
        · rw [h3] at hb
          exact absurd hb (by decide)

/-- Witness for C3: the example cluster on a filesystem missing the
generated inventory file. -/
theorem config_error_raises_witness :
    fsNoInv.pathExists "/tmp/st/ansible-inventory.mycluster" = false ∧
    (∃ msg, (setup_cluster exampleProvider exampleCluster fsNoInv [] 40 "/fresh" 0).result =
        .error msg) ∧
    (setup_cluster exampleProvider exampleCluster fsNoInv [] 40 "/fresh" 0).invoked =
      none := by
  have hmatch : ∃ n ∈ exampleCluster.nodes, ∃ gs,
      List.lookup n.kind exampleProvider.groups = some gs ∧ gs ≠ [] :=
    ⟨exampleNode, by decide, ["web"], by decide, by decide⟩
  have h := config_error_raises exampleProvider exampleCluster fsNoInv [] 40 "/fresh" 0
    hmatch (Or.inl (by decide))
  exact ⟨by decide, h.1, h.2⟩

/-! ## C4: inventory file format -/

theorem header_split (g : String) :
    ("\n[" ++ g ++ "]\n" : String) = "\n" ++ ("[" ++ g ++ "]") ++ "\n" := by
  rw [show ("\n[" : String) = "\n" ++ "[" from rfl,
      show ("]\n" : String) = "]" ++ "\n" from rfl]
  simp only [str_append_assoc]

/-- The file write loop produces, section for section, exactly the
format the spec describes. -/
theorem renderSection_eq_spec (sec : String × List Host) :
    renderSection sec = specRenderSection sec := by
  obtain ⟨g, hs⟩ := sec
  unfold renderSection specRenderSection
  rw [show specHostLine = renderHost from rfl]
  cases hs with
  | nil =>
    simp only [List.isEmpty_nil, if_pos, if_true, List.map_nil]
    rw [str_append_empty, header_split]
    rw [show String.join [] = "" from rfl, str_append_empty]
  | cons h t =>
    simp only [List.isEmpty_cons, Bool.false_eq_true, if_neg, not_false_iff, if_false]
    rw [header_split]

theorem joinSpace_cons_split (x : String) (xs : List String) :
    ∃ rest, joinSpace (x :: xs) = x ++ rest := by
  cases xs with
  | nil => exact ⟨"", (str_append_empty x).symm⟩
  | cons y ys =>
    refine ⟨" " ++ joinSpace (y :: ys), ?_⟩
    rw [show joinSpace (x :: y :: ys) = x ++ " " ++ joinSpace (y :: ys) from rfl]
    rw [str_append_assoc]

/-- The per-node variable string starts with the login-user override. -/
theorem extraVars_starts_with_user (p : Provider) (n : Node) :
    ∃ rest, joinSpace (extraVars p n) = ("ansible_ssh_user=" ++ n.image_user) ++ rest := by
  unfold extraVars
  exact joinSpace_cons_split _ _

theorem addHost_inv (Q : Host → Prop) (inv : InventoryDoc) (g : String) (h : Host)
    (hinv : ∀ sec ∈ inv, ∀ e ∈ sec.2, Q e) (hQ : Q h) :
    ∀ sec ∈ addHost inv g h, ∀ e ∈ sec.2, Q e := by
  induction inv with
  | nil =>
    intro sec hsec e he
    simp only [addHost, List.mem_singleton] at hsec
    subst hsec
    simp only [List.mem_singleton] at he
    subst he
    exact hQ
  | cons s rest ih =>
    obtain ⟨g1, hs⟩ := s
    intro sec hsec e he
    simp only [addHost] at hsec
    by_cases hg : g1 = g
    · rw [if_pos hg] at hsec
      rcases List.mem_cons.mp hsec with hsec1 | hsec2
      · subst hsec1
        rcases List.mem_append.mp he with he1 | he2
        · exact hinv (g1, hs) (List.mem_cons_self _ _) e he1
        · simp only [List.mem_singleton] at he2
          subst he2
          exact hQ
      · exact hinv sec (List.mem_cons_of_mem _ hsec2) e he
    · rw [if_neg hg] at hsec
      rcases List.mem_cons.mp hsec with hsec1 | hsec2
      · subst hsec1
        exact hinv (g1, hs) (List.mem_cons_self _ _) e he
      · exact ih (fun s2 hs2 => hinv s2 (List.mem_cons_of_mem _ hs2)) sec hsec2 e he

theorem foldl_addHost_inv (Q : Host → Prop) (h : Host) (gs : List String)
    (inv : InventoryDoc) (hinv : ∀ sec ∈ inv, ∀ e ∈ sec.2, Q e) (hQ : Q h) :
    ∀ sec ∈ gs.foldl (fun acc g => addHost acc g h) inv, ∀ e ∈ sec.2, Q e := by
  induction gs generalizing inv with
  | nil => exact hinv
  | cons g rest ih =>
    rw [List.foldl_cons]
    exact ih (addHost inv g h) (addHost_inv Q inv g h hinv hQ)

theorem addNode_inv (Q : Host → Prop) (p : Provider) (n : Node) (inv : InventoryDoc)
    (hinv : ∀ sec ∈ inv, ∀ e ∈ sec.2, Q e)
    (hQ : Q (n.name, n.preferred_ip, joinSpace (extraVars p n))) :
    ∀ sec ∈ addNode p inv n, ∀ e ∈ sec.2, Q e := by
  unfold addNode
  cases List.lookup n.kind p.groups with
  | none => exact hinv
  | some gs => exact foldl_addHost_inv Q _ gs inv hinv hQ

theorem foldl_addNode_inv (Q : Host → Prop) (p : Provider) (ns : List Node)
    (hns : ∀ n ∈ ns, Q (n.name, n.preferred_ip, joinSpace (extraVars p n)))
    (inv : InventoryDoc) (hinv : ∀ sec ∈ inv, ∀ e ∈ sec.2, Q e) :
    ∀ sec ∈ ns.foldl (addNode p) inv, ∀ e ∈ sec.2, Q e := by
  induction ns generalizing inv with
  | nil => exact hinv
  | cons n rest ih =>
    rw [List.foldl_cons]
    exact ih (fun m hm => hns m (List.mem_cons_of_mem _ hm)) (addNode p inv n)
      (addNode_inv Q p n inv hinv (hns n (List.mem_cons_self _ _)))

/-- C4: with at least one matching node, the artifact path is
`<storage>/<suffix>.<cluster-name>` and the written file is, for each
group of the document, one blank line, a `[<group>]` header line, and
one line per host `<name> ansible_ssh_host=<address> <variables>`,
where every host entry stems from a cluster node and its variable
string begins with the login-user override
`ansible_ssh_user=<image-user>`. -/
theorem inventory_file_format (p : Provider) (c : Cluster) (tmp path content : String)
    (h : build_inventory p c tmp = some (path, content)) :
    path = path_join (inventoryStorage p tmp) (inventoryName c) ∧
    content = String.join ((buildDoc p c).map specRenderSection) ∧
    (∀ sec ∈ buildDoc p c, ∀ e ∈ sec.2,
      ∃ n, n ∈ c.nodes ∧ e.1 = n.name ∧ e.2.1 = n.preferred_ip ∧
        ∃ rest, e.2.2 = ("ansible_ssh_user=" ++ n.image_user) ++ rest) := by
  unfold build_inventory at h
  by_cases hemp : (buildDoc p c).isEmpty = true
  · rw [if_pos hemp] at h
    exact absurd h (by simp)
  · rw [if_neg hemp] at h
    have hpair := Option.some.inj h
    have hpath := congrArg Prod.fst hpair
    have hcontent := congrArg Prod.snd hpair
    simp only at hpath hcontent
    refine ⟨hpath.symm, ?_, ?_⟩
    · have hmap : (buildDoc p c).map renderSection = (buildDoc p c).map specRenderSection :=
        List.map_congr_left (fun sec _ => renderSection_eq_spec sec)
      rw [← hcontent, hmap]
    · exact foldl_addNode_inv
        (fun e => ∃ n, n ∈ c.nodes ∧ e.1 = n.name ∧ e.2.1 = n.preferred_ip ∧
          ∃ rest, e.2.2 = ("ansible_ssh_user=" ++ n.image_user) ++ rest)
        p c.nodes
        (fun n hn => ⟨n, hn, rfl, rfl, extraVars_starts_with_user p n⟩)
        [] (by simp)

/-- Witness for C4: the spec's running example, producing the exact
file text `\n[web]\nn1 ansible_ssh_host=10.0.0.1 ansible_ssh_user=ubuntu\n`. -/
theorem inventory_file_format_witness :
    build_inventory exampleProvider exampleCluster "/fresh" =
      some ("/tmp/st/ansible-inventory.mycluster",
            "\n[web]\nn1 ansible_ssh_host=10.0.0.1 ansible_ssh_user=ubuntu\n") ∧
    ("\n[web]\nn1 ansible_ssh_host=10.0.0.1 ansible_ssh_user=ubuntu\n" : String) =
      String.join ((buildDoc exampleProvider exampleCluster).map specRenderSection) := by
  have h1 : build_inventory exampleProvider exampleCluster "/fresh" =
      some ("/tmp/st/ansible-inventory.mycluster",
            "\n[web]\nn1 ansible_ssh_host=10.0.0.1 ansible_ssh_user=ubuntu\n") := by
    decide
  have h := inventory_file_format exampleProvider exampleCluster "/fresh"
    "/tmp/st/ansible-inventory.mycluster"
    "\n[web]\nn1 ansible_ssh_host=10.0.0.1 ansible_ssh_user=ubuntu\n" h1
  exact ⟨h1, h.2.1⟩

/-! ## C5: cleanup never touches a sibling cluster's artifact -/

theorem inventoryName_inj {a b : Cluster} (h : a.name ≠ b.name) :
    inventoryName a ≠ inventoryName b := by
  unfold inventoryName
  intro he
  exact h (str_append_cancel_left he)

theorem cleanup_eq_of_guard (p : Provider) (c : Cluster) (st : DirState) (u r : Bool)
    (h : ¬(p.storage_path ≠ "" ∧ st.dirExists = true)) :
    cleanup p c st u r = st := by
  unfold cleanup
  rw [if_neg h]

theorem cleanup_eq_of_absent (p : Provider) (c : Cluster) (st : DirState) (u r : Bool)
    (hA : p.storage_path ≠ "" ∧ st.dirExists = true)
    (hB : inventoryName c ∉ st.files) :
    cleanup p c st u r = st := by
  unfold cleanup
  rw [if_pos hA, if_neg hB]

theorem cleanup_eq_of_unlink_err (p : Provider) (c : Cluster) (st : DirState) (r : Bool)
    (hA : p.storage_path ≠ "" ∧ st.dirExists = true)
    (hB : inventoryName c ∈ st.files) :
    cleanup p c st false r = st := by
  unfold cleanup
  rw [if_pos hA, if_pos hB]
  simp

theorem cleanup_eq_filter (p : Provider) (c : Cluster) (st : DirState) (r : Bool)
    (hA : p.storage_path ≠ "" ∧ st.dirExists = true)
    (hB : inventoryName c ∈ st.files)
    (hC : ¬(p.storage_path_tmp = true ∧
      (st.files.filter (fun f => f ≠ inventoryName c)).length = 0)) :
    cleanup p c st true r =
      { st with files := st.files.filter (fun f => f ≠ inventoryName c) } := by
  unfold cleanup
  rw [if_pos hA, if_pos hB]
  simp only [if_true]
  rw [if_neg hC]

theorem cleanup_eq_rmtree (p : Provider) (c : Cluster) (st : DirState)
    (hA : p.storage_path ≠ "" ∧ st.dirExists = true)
    (hB : inventoryName c ∈ st.files)
    (hC : p.storage_path_tmp = true ∧
      (st.files.filter (fun f => f ≠ inventoryName c)).length = 0) :
    cleanup p c st true true = { dirExists := false, files := [] } := by
  unfold cleanup
  rw [if_pos hA, if_pos hB]
  simp only [if_true]
  rw [if_pos hC]

theorem cleanup_eq_rmtree_err (p : Provider) (c : Cluster) (st : DirState)
    (hA : p.storage_path ≠ "" ∧ st.dirExists = true)
    (hB : inventoryName c ∈ st.files)
    (hC : p.storage_path_tmp = true ∧
      (st.files.filter (fun f => f ≠ inventoryName c)).length = 0) :
    cleanup p c st true false =
      { st with files := st.files.filter (fun f => f ≠ inventoryName c) } := by
  unfold cleanup
  rw [if_pos hA, if_pos hB]
  simp only [if_true]
  rw [if_pos hC]
  simp

/-- C5: cleaning up cluster `a` never deletes the artifact of
cluster `b` in the shared storage directory and never deletes the directory
itself; the directory is removed only when it is ephemeral and, after
deleting the inventory file of `a` itself, empty. -/
theorem cleanup_isolated (p : Provider) (a b : Cluster) (st : DirState) (u r : Bool)
    (hab : a.name ≠ b.name) (hb : inventoryName b ∈ st.files) :
    inventoryName b ∈ (cleanup p a st u r).files ∧
    (cleanup p a st u r).dirExists = st.dirExists ∧
    (∀ st2 : DirState, st2.dirExists = true →
      (cleanup p a st2 u r).dirExists = false →
      st2.files.filter (fun f => f ≠ inventoryName a) = [] ∧
        p.storage_path_tmp = true) := by
  have hremove : ∀ st2 : DirState, st2.dirExists = true →
      (cleanup p a st2 u r).dirExists = false →
      st2.files.filter (fun f => f ≠ inventoryName a) = [] ∧
        p.storage_path_tmp = true := by
    intro st2 hde hrm
    by_cases hA : p.storage_path ≠ "" ∧ st2.dirExists = true
    · by_cases hB : inventoryName a ∈ st2.files
      · cases u with
        | false =>
          rw [cleanup_eq_of_unlink_err p a st2 r hA hB, hde] at hrm
          exact absurd hrm (by decide)
        | true =>
          by_cases hC : p.storage_path_tmp = true ∧
              (st2.files.filter (fun f => f ≠ inventoryName a)).length = 0
          · exact ⟨List.length_eq_zero.mp hC.2, hC.1⟩
          · rw [cleanup_eq_filter p a st2 r hA hB hC] at hrm
            simp only at hrm
            rw [hde] at hrm
            exact absurd hrm (by decide)
      · rw [cleanup_eq_of_absent p a st2 u r hA hB, hde] at hrm
        exact absurd hrm (by decide)
    · rw [cleanup_eq_of_guard p a st2 u r hA, hde] at hrm
      exact absurd hrm (by decide)
  have hmain : inventoryName b ∈ (cleanup p a st u r).files ∧
      (cleanup p a st u r).dirExists = st.dirExists := by
    by_cases hA : p.storage_path ≠ "" ∧ st.dirExists = true
    · by_cases hB : inventoryName a ∈ st.files
      · cases u with
        | false =>
          rw [cleanup_eq_of_unlink_err p a st r hA hB]
          exact ⟨hb, rfl⟩
        | true =>
          have hne : inventoryName b ≠ inventoryName a := inventoryName_inj (Ne.symm hab)
          have hmem : inventoryName b ∈
              st.files.filter (fun f => f ≠ inventoryName a) :=
            List.mem_filter.mpr ⟨hb, by simp [hne]⟩
          have hC : ¬(p.storage_path_tmp = true ∧
              (st.files.filter (fun f => f ≠ inventoryName a)).length = 0) := by
            intro hC0
            rw [List.length_eq_zero] at hC0
            rw [hC0.2] at hmem
            exact absurd hmem (List.not_mem_nil _)
          rw [cleanup_eq_filter p a st r hA hB hC]
          exact ⟨hmem, rfl⟩
      · rw [cleanup_eq_of_absent p a st u r hA hB]
        exact ⟨hb, rfl⟩
    · rw [cleanup_eq_of_guard p a st u r hA]
      exact ⟨hb, rfl⟩
  exact ⟨hmain.1, hmain.2, hremove⟩

/-- Witness for C5: two clusters `alpha` and `beta` sharing one
ephemeral directory; cleaning up `alpha` leaves the artifact of `beta`
and the directory in place. -/
theorem cleanup_isolated_witness :
    clusterA.name ≠ clusterB.name ∧
    inventoryName clusterB ∈ sharedDir.files ∧
    inventoryName clusterB ∈ (cleanup tmpProvider clusterA sharedDir true true).files ∧
    (cleanup tmpProvider clusterA sharedDir true true).dirExists = true := by
  have h := cleanup_isolated tmpProvider clusterA clusterB sharedDir true true
    (by decide) (by decide)
  exact ⟨by decide, by decide, h.1, h.2.1.trans rfl⟩

/-! ## C6: cleanup is idempotent, total, and swallows removal errors -/

/-- C6: `cleanup` with no artifact present (or with the storage
directory gone) is a no-op; running it twice equals running it once;
a failing `os.unlink` is swallowed, leaving the state unchanged (the
call is a total function, so it never raises); and on a successful
unlink no inventory file for the cluster remains. -/
theorem cleanup_idempotent_total (p : Provider) (c : Cluster) (st : DirState)
    (u r : Bool) :
    (inventoryName c ∉ st.files → cleanup p c st u r = st) ∧
    (st.dirExists = false → cleanup p c st u r = st) ∧
    (cleanup p c (cleanup p c st u r) u r = cleanup p c st u r) ∧
    (cleanup p c st false r = st) ∧
    (p.storage_path ≠ "" → st.dirExists = true →
      inventoryName c ∉ (cleanup p c st true r).files) := by
  have hswallow : ∀ st2 : DirState, cleanup p c st2 false r = st2 := by
    intro st2
    by_cases hA : p.storage_path ≠ "" ∧ st2.dirExists = true
    · by_cases hB : inventoryName c ∈ st2.files
      · exact cleanup_eq_of_unlink_err p c st2 r hA hB
      · exact cleanup_eq_of_absent p c st2 false r hA hB
    · exact cleanup_eq_of_guard p c st2 false r hA
  have habsent : ∀ st2 : DirState, inventoryName c ∉ st2.files →
      cleanup p c st2 u r = st2 := by
    intro st2 hB
    by_cases hA : p.storage_path ≠ "" ∧ st2.dirExists = true
    · exact cleanup_eq_of_absent p c st2 u r hA hB
    · exact cleanup_eq_of_guard p c st2 u r hA
  have hgone : ∀ st2 : DirState, st2.dirExists = false →
      cleanup p c st2 u r = st2 := by
    intro st2 hd
    refine cleanup_eq_of_guard p c st2 u r ?_
    intro hA
    rw [hd] at hA
    exact absurd hA.2 (by decide)
  have hnores : ∀ st2 : DirState, p.storage_path ≠ "" → st2.dirExists = true →
      inventoryName c ∉ (cleanup p c st2 true r).files := by
    intro st2 hsp hde
    have hA : p.storage_path ≠ "" ∧ st2.dirExists = true := ⟨hsp, hde⟩
    by_cases hB : inventoryName c ∈ st2.files
    · have hfilter : inventoryName c ∉
          st2.files.filter (fun f => f ≠ inventoryName c) := by
        intro hmem
        have := (List.mem_filter.mp hmem).2
        simp at this
      by_cases hC : p.storage_path_tmp = true ∧
          (st2.files.filter (fun f => f ≠ inventoryName c)).length = 0
      · cases r with
        | true =>
          rw [cleanup_eq_rmtree p c st2 hA hB hC]
          exact List.not_mem_nil _
        | false =>
          rw [cleanup_eq_rmtree_err p c st2 hA hB hC]
          exact hfilter
      · rw [cleanup_eq_filter p c st2 r hA hB hC]
        exact hfilter
    · rw [cleanup_eq_of_absent p c st2 true r hA hB]
      exact hB
  refine ⟨habsent st, hgone st, ?_, hswallow st, hnores st⟩
  cases u with
  | false => rw [hswallow st, hswallow st]
  | true =>
    by_cases hA : p.storage_path ≠ "" ∧ st.dirExists = true
    · by_cases hB : inventoryName c ∈ st.files
      · by_cases hC : p.storage_path_tmp = true ∧
            (st.files.filter (fun f => f ≠ inventoryName c)).length = 0
        · cases r with
          | true =>
            rw [cleanup_eq_rmtree p c st hA hB hC]
            exact hgone { dirExists := false, files := [] } rfl
          | false =>
            rw [cleanup_eq_rmtree_err p c st hA hB hC]
            exact habsent _ (by
              intro hmem
              have := (List.mem_filter.mp hmem).2
              simp at this)
        · rw [cleanup_eq_filter p c st r hA hB hC]
          exact habsent _ (by
            intro hmem
            have := (List.mem_filter.mp hmem).2
            simp at this)
      · rw [cleanup_eq_of_absent p c st true r hA hB]
        exact cleanup_eq_of_absent p c st true r hA hB
    · rw [cleanup_eq_of_guard p c st true r hA]
      exact cleanup_eq_of_guard p c st true r hA

/-- Witness for C6 on a directory holding only the artifact of the
cluster itself: cleanup deletes it, removes the ephemeral directory,
and a second cleanup is a no-op. -/
theorem cleanup_idempotent_total_witness :
    (inventoryName clusterA ∉ ([] : List String) →
      cleanup tmpProvider clusterA ⟨true, []⟩ true true = ⟨true, []⟩) ∧
    (cleanup tmpProvider clusterA
      (cleanup tmpProvider clusterA ⟨true, ["ansible-inventory.alpha"]⟩ true true)
      true true =
      cleanup tmpProvider clusterA ⟨true, ["ansible-inventory.alpha"]⟩ true true) ∧
    (cleanup tmpProvider clusterA ⟨true, ["ansible-inventory.alpha"]⟩ false true =
      ⟨true, ["ansible-inventory.alpha"]⟩) ∧
    (tmpProvider.storage_path ≠ "" ∧
      inventoryName clusterA ∉
        (cleanup tmpProvider clusterA ⟨true, ["ansible-inventory.alpha"]⟩ true true).files) := by
  have h1 := cleanup_idempotent_total tmpProvider clusterA ⟨true, []⟩ true true
  have h2 := cleanup_idempotent_total tmpProvider clusterA
    ⟨true, ["ansible-inventory.alpha"]⟩ true true
  have h3 := cleanup_idempotent_total tmpProvider clusterA
    ⟨true, ["ansible-inventory.alpha"]⟩ false true
  exact ⟨fun _ => h1.1 (by decide), h2.2.2.1, h3.2.2.2.1,
    by decide, h2.2.2.2.2 (by decide) rfl⟩

end AnsibleProvider

